import Mathlib

/-!
Verification of the leader/follower view-replication core of the zed
repository.  The registry, pane follow controller, reconciliation logic and
broadcast convergence are modelled from the specification (the repository
ships only the integration tests for this core); `Workspace.open_entry` is
embedded from `src/zed/src/workspace/workspace.rs`.
-/

set_option autoImplicit false

namespace Following

/-- Opaque peer identifier, externally supplied. -/
abbrev PeerId := Nat

/-- Opaque shared-project identifier. -/
abbrev ProjectId := Nat

/-- Key of a follow edge: the leader together with the project the edge lives in. -/
abbrev EdgeKey := PeerId × ProjectId

/-- Modelled from the spec: the Follow Registry holds, per `(leader, project)`
key, the set of followers (kept as an insertion-ordered duplicate-free list,
matching the ordered follower vectors observed by `followers_by_leader` in
`following_tests.rs`).  Empty sets are pruned. -/
structure Registry where
  edges : List (EdgeKey × List PeerId)
deriving DecidableEq, Repr

/-- First-match association lookup over the edge list. -/
def lookupEdge : List (EdgeKey × List PeerId) → EdgeKey → Option (List PeerId)
  | [], _ => none
  | (k, fs) :: rest, key => if k = key then some fs else lookupEdge rest key

/-- Removes every entry with the given key from the edge list. -/
def eraseKey : List (EdgeKey × List PeerId) → EdgeKey → List (EdgeKey × List PeerId)
  | [], _ => []
  | (k, fs) :: rest, key =>
    if k = key then eraseKey rest key else (k, fs) :: eraseKey rest key

/-- Modelled from the spec: `followers_of(leader, project)`, the read-only
query; empty set if no edge is present. -/
def followers_of (r : Registry) (leader : PeerId) (project : ProjectId) : List PeerId :=
  match lookupEdge r.edges (leader, project) with
  | some fs => fs
  | none => []

/-- Replaces the follower set stored under `key`; an empty set prunes the
edge entirely (spec invariant: an edge exists only while at least one
follower is registered). -/
def setEdge (r : Registry) (key : EdgeKey) (fs : List PeerId) : Registry :=
  if fs.isEmpty then ⟨eraseKey r.edges key⟩
  else ⟨(key, fs) :: eraseKey r.edges key⟩

/-- Idempotent set insertion, appending new followers at the end (matching
the insertion-ordered follower vectors of `followers_by_leader`). -/
def addFollower (fs : List PeerId) (f : PeerId) : List PeerId :=
  if f ∈ fs then fs else fs ++ [f]

/-- Idempotent set removal. -/
def removeFollower (fs : List PeerId) (f : PeerId) : List PeerId :=
  fs.filter (fun x => decide (x ≠ f))

/-- Modelled from the spec: the error kinds of a follow request. -/
inductive FollowError where
  | SelfFollow
  | LeaderUnavailable
deriving DecidableEq, Repr

/-- Modelled from the spec: `follow(follower, leader, project)` fails with
`SelfFollow` when `follower = leader`, with `LeaderUnavailable` when the
leader is not present in the project (presence supplied by the external Peer
Directory as `present`), and otherwise inserts the follower into the edge's
set (idempotently, appending new followers at the end). -/
def follow (present : PeerId → ProjectId → Bool) (r : Registry)
    (follower leader : PeerId) (project : ProjectId) : Except FollowError Registry :=
  if follower = leader then .error .SelfFollow
  else if present leader project then
    .ok (setEdge r (leader, project) (addFollower (followers_of r leader project) follower))
  else .error .LeaderUnavailable

/-- Modelled from the spec: `unfollow(follower, leader, project)`, idempotent
removal; no error if the edge is absent. -/
def unfollow (r : Registry) (follower leader : PeerId) (project : ProjectId) : Registry :=
  setEdge r (leader, project) (removeFollower (followers_of r leader project) follower)

/-- Modelled from the spec: `remove_peer(peer)` removes `peer` as leader
(dropping all its edges) and as follower (removing it from every edge it
belongs to), pruning emptied edges. -/
def remove_peer (r : Registry) (peer : PeerId) : Registry :=
  ⟨r.edges.filterMap (fun e =>
    if e.fst.fst = peer then none
    else
      let fs := e.snd.filter (fun f => decide (f ≠ peer))
      if fs.isEmpty then none else some (e.fst, fs))⟩

/-- The spec invariant that a peer never appears in its own follower set. -/
def NoSelfEdges (r : Registry) : Prop :=
  ∀ p proj, p ∉ followers_of r p proj

/-- Modelled from the spec: the state attached to a pane, either `Unfollowed`
or `Following leader`. -/
inductive PaneFollowState where
  | Unfollowed
  | Following (leader : PeerId)
deriving DecidableEq, Repr

/-- Semantic identity of an item (project path or composition descriptor),
kept opaque. -/
abbrev ItemRef := Nat

/-- Modelled from the spec: the `ViewSnapshot` wire value, restricted to the
field the reconciliation claims exercise (the identity of the leader's active
item). -/
structure ViewSnapshot where
  active_item : ItemRef
deriving DecidableEq, Repr

/-- First-match lookup of the last applied sequence number for a leader. -/
def lookupSeq : List (PeerId × Nat) → PeerId → Option Nat
  | [], _ => none
  | (l, n) :: rest, leader => if l = leader then some n else lookupSeq rest leader

/-- Overwrites the stored sequence number for a leader. -/
def storeSeq : List (PeerId × Nat) → PeerId → Nat → List (PeerId × Nat)
  | [], leader, n => [(leader, n)]
  | (l, m) :: rest, leader, n =>
    if l = leader then (leader, n) :: rest else (l, m) :: storeSeq rest leader n

/-- Modelled from the spec: a pane of the follower's workspace — its follow
state, its ordered tab strip, its active item, and the last applied
`LeaderUpdate` sequence number per leader. -/
structure Pane where
  followState : PaneFollowState
  tabs : List ItemRef
  activeItem : Option ItemRef
  lastSeqs : List (PeerId × Nat)
deriving DecidableEq, Repr

/-- Last applied sequence number for `leader` (0 when none applied yet). -/
def lastSeqOf (p : Pane) (leader : PeerId) : Nat :=
  match lookupSeq p.lastSeqs leader with
  | some n => n
  | none => 0

/-- Modelled from the spec: the kinds of local interaction that the pane's
input handling reports when a change was not performed under suppression. -/
inductive InteractionKind where
  | EditContent
  | ChangeSelection
  | ChangeScroll
  | ActivateDifferentItemManually
deriving DecidableEq, Repr

/-- Modelled from the spec: `on_local_interaction(kind)` — for every kind, if
the pane is `Following(_)` it transitions to `Unfollowed` (the registry-side
`stop_following` is the workspace-level wrapper below). -/
def on_local_interaction (p : Pane) (_kind : InteractionKind) : Pane :=
  match p.followState with
  | .Following _ => { p with followState := .Unfollowed }
  | .Unfollowed => p

/-- Modelled from the spec: the local-change detector — a change performed
under the "is-remote-apply" suppression flag is ignored; otherwise
`on_local_interaction` runs. -/
def local_change (p : Pane) (kind : InteractionKind) (suppressed : Bool) : Pane :=
  if suppressed then p else on_local_interaction p kind

/-- Modelled from the spec: reconciliation of a remote snapshot against a
local pane.  A matching open tab is activated in place; a new item that can
be materialized locally is appended at the end of the tab order and
activated; an item that cannot be materialized leaves the pane unchanged. -/
def apply_snapshot (canMaterialize : ItemRef → Bool) (p : Pane) (snap : ViewSnapshot) : Pane :=
  if snap.active_item ∈ p.tabs then
    { p with activeItem := some snap.active_item }
  else if canMaterialize snap.active_item then
    { p with
      tabs := p.tabs ++ [snap.active_item]
      activeItem := some snap.active_item }
  else p

/-- Modelled from the spec: `on_leader_update(snapshot, seq)` — ignored unless
the pane is `Following leader` and `seq` is strictly greater than the last
applied sequence for that leader; otherwise applies the snapshot and records
the sequence number. -/
def on_leader_update (canMaterialize : ItemRef → Bool) (p : Pane) (leader : PeerId)
    (snap : ViewSnapshot) (seq : Nat) : Pane :=
  match p.followState with
  | .Following l =>
    if l = leader ∧ lastSeqOf p leader < seq then
      let p' := apply_snapshot canMaterialize p snap
      { p' with lastSeqs := storeSeq p'.lastSeqs leader seq }
    else p
  | .Unfollowed => p

/-- Modelled from the spec: `on_leader_disconnected_or_left(leader)` — a pane
in `Following leader` transitions to `Unfollowed` without sending an explicit
unfollow message. -/
def on_leader_disconnected (p : Pane) (leader : PeerId) : Pane :=
  if p.followState = .Following leader then { p with followState := .Unfollowed } else p

/-- Modelled from the spec: a workspace as seen by one client — an ordered
list of panes and the index of the active pane. -/
structure WorkspaceM where
  panes : List Pane
  active : Nat
deriving DecidableEq, Repr

/-- Activating a different pane only moves the active-pane index; no pane's
follow state is touched. -/
def activate_pane (w : WorkspaceM) (i : Nat) : WorkspaceM :=
  { w with active := i }

/-- Modelled from the spec: splitting pane `i` clones its tabs into a new
pane appended to the workspace; the new pane starts `Unfollowed` while the
original pane's state is untouched (`split_and_clone` in the tests). -/
def split_pane (w : WorkspaceM) (i : Nat) : WorkspaceM :=
  match w.panes[i]? with
  | some p =>
    { panes := w.panes ++ [{ p with followState := .Unfollowed, lastSeqs := [] }]
      active := w.panes.length }
  | none => w

/-- One client's view for registry-coupled pane operations: its replicated
registry copy together with one pane. -/
structure ClientState where
  registry : Registry
  pane : Pane
deriving DecidableEq, Repr

/-- Modelled from the spec: `start_following(leader)` — calls the registry's
`follow`; on success the pane is first detached from its previous leader's
edge (switching leaders in `test_basic_following` removes the old edge) and
set to `Following leader`.  A failed follow call leaves everything
unchanged. -/
def start_following (present : PeerId → ProjectId → Bool) (s : ClientState)
    (me leader : PeerId) (project : ProjectId) : ClientState :=
  let r0 := match s.pane.followState with
    | .Following old => unfollow s.registry me old project
    | .Unfollowed => s.registry
  match follow present r0 me leader project with
  | .ok r1 => { registry := r1, pane := { s.pane with followState := .Following leader } }
  | .error _ => s

/-- Modelled from the spec: `stop_following` — registry-side `unfollow` plus
the pane transition to `Unfollowed`; a no-op when already unfollowed. -/
def stop_following (s : ClientState) (me : PeerId) (project : ProjectId) : ClientState :=
  match s.pane.followState with
  | .Following leader =>
    { registry := unfollow s.registry me leader project
      pane := { s.pane with followState := .Unfollowed } }
  | .Unfollowed => s

/-- Runs a sequence of `start_following` calls on the same pane. -/
def run_follows (present : PeerId → ProjectId → Bool) (s : ClientState) (me : PeerId) :
    List (PeerId × ProjectId) → ClientState
  | [] => s
  | (l, proj) :: rest => run_follows present (start_following present s me l proj) me rest

/-- The leader of the most recent follow call in the sequence that
succeeds (is neither a self-follow nor targets an absent leader). -/
def last_success (present : PeerId → ProjectId → Bool) (me : PeerId) :
    List (PeerId × ProjectId) → Option PeerId
  | [] => none
  | (l, proj) :: rest =>
    match last_success present me rest with
    | some x => some x
    | none => if me ≠ l ∧ present l proj then some l else none

/-- A client's workspace coupled with its registry copy, for per-pane follow
operations. -/
structure WSClient where
  registry : Registry
  panes : List Pane
deriving DecidableEq, Repr

/-- Modelled from the spec: `start_following` invoked on pane `i` of the
workspace; panes other than `i` are untouched. -/
def ws_follow (present : PeerId → ProjectId → Bool) (w : WSClient) (i : Nat)
    (me leader : PeerId) (project : ProjectId) : WSClient :=
  match w.panes[i]? with
  | some p =>
    let s' := start_following present ⟨w.registry, p⟩ me leader project
    ⟨s'.registry, w.panes.set i s'.pane⟩
  | none => w

/-- Modelled from the spec: two peers issuing follow requests targeting each
other; the single-writer registry serializes the two mutations (spec section
5), so the second request starts from the registry left by the first.
Returns the two clients' final states (the registry of the second is the
converged one). -/
def mutual_follow (present : PeerId → ProjectId → Bool) (r : Registry) (pA pB : Pane)
    (A B : PeerId) (proj : ProjectId) : ClientState × ClientState :=
  let sA := start_following present ⟨r, pA⟩ A B proj
  let sB := start_following present ⟨sA.registry, pB⟩ B A proj
  (sA, sB)

/-- A multi-client system slice for disconnect cleanup: the (converged)
registry and the panes of all follower clients. -/
structure SysState where
  registry : Registry
  panes : List Pane
deriving DecidableEq, Repr

/-- Modelled from the spec: when a peer disconnects and the reconnect window
elapses, `remove_peer` fires on the registry and every pane following that
peer observes `on_leader_disconnected` — no follower sends an explicit
unfollow message. -/
def handle_remove_peer (s : SysState) (peer : PeerId) : SysState :=
  { registry := remove_peer s.registry peer
    panes := s.panes.map (fun p => on_leader_disconnected p peer) }

/-- The edge mapping carried by a `FollowersChanged` broadcast for one
project: leader to follower set. -/
abbrev FCEdges := List (PeerId × List PeerId)

/-- First-match lookup in a broadcast edge mapping; empty if absent. -/
def lookupFC : FCEdges → PeerId → List PeerId
  | [], _ => []
  | (l, fs) :: rest, leader => if l = leader then fs else lookupFC rest leader

/-- Drops every edge belonging to the given project. -/
def dropProject (P : ProjectId) : List (EdgeKey × List PeerId) → List (EdgeKey × List PeerId)
  | [] => []
  | (k, fs) :: rest =>
    if k.snd = P then dropProject P rest else (k, fs) :: dropProject P rest

/-- Keys a broadcast mapping by the project it belongs to. -/
def tagProject (P : ProjectId) : FCEdges → List (EdgeKey × List PeerId)
  | [] => []
  | (l, fs) :: rest => ((l, P), fs) :: tagProject P rest

/-- Modelled from the spec: applying a `FollowersChanged{project, edges}`
broadcast replaces the receiver's edges for that project wholesale by the
broadcast mapping (full-state replacement makes at-least-once delivery
idempotent). -/
def apply_followers_changed (r : Registry) (project : ProjectId) (es : FCEdges) : Registry :=
  ⟨dropProject project r.edges ++ tagProject project es⟩

/-- Delivers a list of `FollowersChanged` broadcasts in order. -/
def deliver_all (r : Registry) : List (ProjectId × FCEdges) → Registry
  | [] => r
  | (proj, es) :: rest => deliver_all (apply_followers_changed r proj es) rest

/-- The final broadcast for a given project in a delivery schedule, if any. -/
def lastFC : List (ProjectId × FCEdges) → ProjectId → Option FCEdges
  | [], _ => none
  | (proj, es) :: rest, P =>
    match lastFC rest P with
    | some es2 => some es2
    | none => if proj = P then some es else none

/-- Pane with tabs `1.txt ↦ 1` and `3.txt ↦ 3` open, as the follower pane of
`test_following_tab_order`. -/
def tabPane : Pane :=
  { followState := .Following 9, tabs := [1, 3], activeItem := some 3, lastSeqs := [] }

/-- Capability predicate of a follower able to materialize every item. -/
def allItems : ItemRef → Bool := fun _ => true

/-- Capability predicate of a follower able to materialize no item. -/
def noItems : ItemRef → Bool := fun _ => false

/-- A small concrete registry for witnesses: leader 1, project 0, followers
2 and 3. -/
def sampleReg : Registry := ⟨[((1, 0), [2, 3])]⟩

/-- Shared concrete sample states for witnesses. -/
def samplePane : Pane :=
  { followState := .Following 1, tabs := [10], activeItem := some 10, lastSeqs := [] }

def sampleWs : WorkspaceM :=
  { panes := [samplePane], active := 0 }

end Following

namespace Zed

/-- Entry key `(worktree id, file entry id)` as in
`Workspace.items : HashMap<(usize, u64), OpenedItem>`. -/
abbrev EntryKey := Nat × Nat

/-- Identifier of an item model handle (`ItemHandle::id`). -/
abbrev HandleId := Nat

/-- `OpenResult = Result<Box<dyn ItemHandle>, Arc<anyhow::Error>>`, with the
handle and the error each reduced to an identifier. -/
abbrev OpenResult := Except Nat HandleId

/-- `enum OpenedItem \x7b Loading(watch::Receiver<Option<OpenResult>>),
Loaded(Box<dyn ItemHandle>) \x7d`; the receiver is identified by its channel
id. -/
inductive OpenedItem where
  | Loading (ch : Nat)
  | Loaded (handle : HandleId)
deriving DecidableEq, Repr

/-- The future returned by `open_entry`: either already resolved (the
`Loaded` branch returns `Ok(handle)` immediately) or waiting on the watch
channel of a `Loading` entry. -/
inductive OpenFuture where
  | ready (r : OpenResult)
  | fromChannel (ch : Nat)
deriving Repr

/-- First-match lookup in the items map. -/
def lookupItem : List (EntryKey × OpenedItem) → EntryKey → Option OpenedItem
  | [], _ => none
  | (k, it) :: rest, key => if k = key then some it else lookupItem rest key

/-- `HashMap::insert` on the items map: overwrites the first binding for the
key, otherwise appends. -/
def insertItem : List (EntryKey × OpenedItem) → EntryKey → OpenedItem →
    List (EntryKey × OpenedItem)
  | [], key, it => [(key, it)]
  | (k, old) :: rest, key, it =>
    if k = key then (key, it) :: rest else (k, old) :: insertItem rest key it

/-- First-match read of a watch channel's current value (`None` while the
load is pending). -/
def readChan : List (Nat × Option OpenResult) → Nat → Option OpenResult
  | [], _ => none
  | (c, v) :: rest, ch => if c = ch then (match v with | some r => some r | none => none)
      else readChan rest ch

/-- Writes a watch channel (`tx.update`). -/
def writeChan : List (Nat × Option OpenResult) → Nat → OpenResult →
    List (Nat × Option OpenResult)
  | [], ch, r => [(ch, some r)]
  | (c, v) :: rest, ch, r =>
    if c = ch then (ch, some r) :: rest else (c, v) :: writeChan rest ch r

/-- The state of `Workspace` relevant to `open_entry`: the worktree ids, the
`items` map, and the watch channels created for pending loads (`nextChan`
allocates fresh channel ids). -/
structure WorkspaceSt where
  worktrees : List Nat
  items : List (EntryKey × OpenedItem)
  chans : List (Nat × Option OpenResult)
  nextChan : Nat
deriving Repr

/-- Embedding of `Workspace::open_entry` (workspace.rs lines 126-190).  If
the entry is already in `items`, the returned future resolves from that
entry (`Loaded` resolves immediately, `Loading` waits on its channel) and no
state changes — in particular no second load starts.  Otherwise, when the
worktree exists, a fresh watch channel is created, `Loading` is inserted and
the load task is spawned; the recursive tail call then returns the
`Loading` future.  A missing worktree is the synchronous `Err` return. -/
def open_entry (w : WorkspaceSt) (entry : EntryKey) :
    Except Unit (OpenFuture × WorkspaceSt) :=
  match lookupItem w.items entry with
  | some (OpenedItem.Loaded h) => .ok (.ready (.ok h), w)
  | some (OpenedItem.Loading ch) => .ok (.fromChannel ch, w)
  | none =>
    if entry.fst ∈ w.worktrees then
      let ch := w.nextChan
      .ok (.fromChannel ch,
        { w with
          items := insertItem w.items entry (OpenedItem.Loading ch)
          chans := (ch, none) :: w.chans
          nextChan := w.nextChan + 1 })
    else .error ()

/-- Embedding of the spawned load-completion task (the closure passed to
`ctx.spawn`): on success it overwrites the entry with `Loaded(handle)` and
publishes `Ok(handle)` on the captured channel; on failure it only publishes
the error (the entry stays `Loading`, as in the source). -/
def finish_load (w : WorkspaceSt) (entry : EntryKey) (ch : Nat) (res : OpenResult) :
    WorkspaceSt :=
  match res with
  | .ok h =>
    { w with
      items := insertItem w.items entry (OpenedItem.Loaded h)
      chans := writeChan w.chans ch (.ok h) }
  | .error e => { w with chans := writeChan w.chans ch (.error e) }

/-- Resolution of an `open_entry` future against the workspace state: a ready
future yields its result; a channel future yields the channel's published
value once the load task has finished. -/
def resolve (w : WorkspaceSt) : OpenFuture → Option OpenResult
  | .ready r => some r
  | .fromChannel ch => readChan w.chans ch

/-- The workspace state right after `open_entry` has begun loading a missing
entry: `Loading` inserted under a fresh watch channel, load task spawned. -/
def startSt (w : WorkspaceSt) (entry : EntryKey) : WorkspaceSt :=
  { w with
    items := insertItem w.items entry (OpenedItem.Loading w.nextChan)
    chans := (w.nextChan, none) :: w.chans
    nextChan := w.nextChan + 1 }

end Zed


namespace Following

theorem lookupEdge_eraseKey_self (es : List (EdgeKey × List PeerId)) (key : EdgeKey) :
    lookupEdge (eraseKey es key) key = none := by
  induction es with
  | nil => simp [eraseKey, lookupEdge]
  | cons e rest ih =>
    obtain ⟨k, fs⟩ := e
    by_cases h : k = key <;> simp [eraseKey, lookupEdge, h, ih]

theorem lookupEdge_eraseKey_ne (es : List (EdgeKey × List PeerId)) (key key' : EdgeKey)
    (h : key' ≠ key) : lookupEdge (eraseKey es key) key' = lookupEdge es key' := by
  induction es with
  | nil => simp [eraseKey]
  | cons e rest ih =>
    obtain ⟨k, fs⟩ := e
    by_cases hk : k = key
    · subst hk
      simp [eraseKey, lookupEdge, Ne.symm h, ih]
    · simp [eraseKey, hk, lookupEdge, ih]

theorem eraseKey_idem (es : List (EdgeKey × List PeerId)) (key : EdgeKey) :
    eraseKey (eraseKey es key) key = eraseKey es key := by
  induction es with
  | nil => simp [eraseKey]
  | cons e rest ih =>
    obtain ⟨k, fs⟩ := e
    by_cases h : k = key <;> simp [eraseKey, h, ih]

theorem eraseKey_of_lookup_none (es : List (EdgeKey × List PeerId)) (key : EdgeKey)
    (h : lookupEdge es key = none) : eraseKey es key = es := by
  induction es with
  | nil => simp [eraseKey]
  | cons e rest ih =>
    obtain ⟨k, fs⟩ := e
    by_cases hk : k = key
    · simp [lookupEdge, hk] at h
    · simp [lookupEdge, hk] at h
      simp [eraseKey, hk, ih h]

theorem followers_of_setEdge_self (r : Registry) (key : EdgeKey) (fs : List PeerId) :
    followers_of (setEdge r key fs) key.1 key.2 = fs := by
  by_cases h : fs.isEmpty
  · have : fs = [] := List.isEmpty_iff.mp h
    subst this
    simp [setEdge, followers_of, lookupEdge_eraseKey_self]
  · simp [setEdge, h, followers_of, lookupEdge]

theorem followers_of_setEdge_ne (r : Registry) (key key' : EdgeKey) (fs : List PeerId)
    (h : key' ≠ key) :
    followers_of (setEdge r key fs) key'.1 key'.2 = followers_of r key'.1 key'.2 := by
  by_cases he : fs.isEmpty <;>
    simp [setEdge, he, followers_of, lookupEdge, h, Ne.symm h,
      lookupEdge_eraseKey_ne r.edges key key' h]

end Following

namespace Following

/-- C1: for a pane in `Following L`, every local interaction kind (edit,
selection change, scroll, manual activation of a different item) performed
without suppression transitions the pane to `Unfollowed`, while the same
interaction performed under snapshot-application suppression changes
nothing; activating a different pane leaves every pane's state intact; and
splitting a pane preserves the original pane while the new pane starts
`Unfollowed`. -/
theorem C1_auto_unfollow_coverage (p : Pane) (L : PeerId) (kind : InteractionKind)
    (hp : p.followState = .Following L)
    (w : WorkspaceM) (i j : Nat) (hi : i < w.panes.length) :
    (local_change p kind false).followState = .Unfollowed
    ∧ local_change p kind true = p
    ∧ (activate_pane w j).panes[i]? = w.panes[i]?
    ∧ (split_pane w i).panes[i]? = w.panes[i]?
    ∧ ((split_pane w i).panes[w.panes.length]?).map Pane.followState
        = some .Unfollowed := by
  obtain ⟨q, hq⟩ : ∃ q, w.panes[i]? = some q := ⟨_, List.getElem?_eq_getElem hi⟩
  refine ⟨?_, ?_, rfl, ?_, ?_⟩
  · simp [local_change, on_local_interaction, hp]
  · simp [local_change]
  · simp [split_pane, hq, List.getElem?_append, hi]
  · simp [split_pane, hq, List.getElem?_concat_length]

theorem C1_auto_unfollow_coverage_witness :
    (local_change samplePane .EditContent false).followState = .Unfollowed
    ∧ local_change samplePane .EditContent true = samplePane
    ∧ (activate_pane sampleWs 1).panes[0]? = sampleWs.panes[0]?
    ∧ (split_pane sampleWs 0).panes[0]? = sampleWs.panes[0]?
    ∧ ((split_pane sampleWs 0).panes[sampleWs.panes.length]?).map Pane.followState
        = some .Unfollowed :=
  C1_auto_unfollow_coverage samplePane 1 .EditContent rfl sampleWs 0 1 (by decide)

end Following

namespace Following

/-- C2: a leader item absent from the follower's tabs is appended at the end
of the follower pane's tab order (never inserted at the leader's relative
position) and activated, while an item the follower already has open is
activated with the tab order unchanged; concretely, a follower pane
`[1.txt, 3.txt]` whose leader opens `2.txt` becomes `[1.txt, 3.txt, 2.txt]`,
and the leader then opening `1.txt` causes no reordering. -/
theorem C2_tab_append_policy (canMat : ItemRef → Bool) (p : Pane) (a b : ItemRef)
    (ha : a ∉ p.tabs) (hca : canMat a = true) (hb : b ∈ p.tabs) :
    (apply_snapshot canMat p ⟨a⟩).tabs = p.tabs ++ [a]
    ∧ (apply_snapshot canMat p ⟨a⟩).activeItem = some a
    ∧ (apply_snapshot canMat p ⟨b⟩).tabs = p.tabs
    ∧ (apply_snapshot canMat p ⟨b⟩).activeItem = some b
    ∧ (apply_snapshot allItems tabPane ⟨2⟩).tabs = [1, 3, 2]
    ∧ (apply_snapshot allItems (apply_snapshot allItems tabPane ⟨2⟩) ⟨1⟩).tabs = [1, 3, 2]
    ∧ (apply_snapshot allItems (apply_snapshot allItems tabPane ⟨2⟩) ⟨1⟩).activeItem
        = some 1 := by
  refine ⟨?_, ?_, ?_, ?_, by decide, by decide, by decide⟩ <;>
    simp [apply_snapshot, ha, hca, hb]

theorem C2_tab_append_policy_witness :
    (apply_snapshot allItems tabPane ⟨2⟩).tabs = tabPane.tabs ++ [2]
    ∧ (apply_snapshot allItems tabPane ⟨2⟩).activeItem = some 2
    ∧ (apply_snapshot allItems tabPane ⟨1⟩).tabs = tabPane.tabs
    ∧ (apply_snapshot allItems tabPane ⟨1⟩).activeItem = some 1
    ∧ (apply_snapshot allItems tabPane ⟨2⟩).tabs = [1, 3, 2]
    ∧ (apply_snapshot allItems (apply_snapshot allItems tabPane ⟨2⟩) ⟨1⟩).tabs = [1, 3, 2]
    ∧ (apply_snapshot allItems (apply_snapshot allItems tabPane ⟨2⟩) ⟨1⟩).activeItem
        = some 1 :=
  C2_tab_append_policy allItems tabPane 2 1 (by decide) rfl (by decide)

/-- C6: applying a snapshot whose active item cannot be materialized locally
leaves the follower pane entirely unchanged — the previously displayed
active item stays active and no error is raised (reconciliation is total). -/
theorem C6_unfollowable_fallback (canMat : ItemRef → Bool) (p : Pane) (snap : ViewSnapshot)
    (hc : canMat snap.active_item = false) (ht : snap.active_item ∉ p.tabs) :
    apply_snapshot canMat p snap = p
    ∧ (apply_snapshot canMat p snap).activeItem = p.activeItem := by
  have h : apply_snapshot canMat p snap = p := by simp [apply_snapshot, ht, hc]
  exact ⟨h, by rw [h]⟩

theorem C6_unfollowable_fallback_witness :
    apply_snapshot noItems tabPane ⟨2⟩ = tabPane
    ∧ (apply_snapshot noItems tabPane ⟨2⟩).activeItem = tabPane.activeItem :=
  C6_unfollowable_fallback noItems tabPane ⟨2⟩ rfl (by decide)

end Following

namespace Following

theorem setEdge_setEdge (r : Registry) (key : EdgeKey) (fs fs' : List PeerId) :
    setEdge (setEdge r key fs) key fs' = setEdge r key fs' := by
  by_cases h : fs.isEmpty <;> by_cases h' : fs'.isEmpty <;>
    simp [setEdge, h, h', eraseKey, eraseKey_idem]

theorem removeFollower_idem (fs : List PeerId) (f : PeerId) :
    removeFollower (removeFollower fs f) f = removeFollower fs f := by
  simp [removeFollower, List.filter_filter]

theorem followers_of_unfollow (r : Registry) (f l : PeerId) (proj : ProjectId) :
    followers_of (unfollow r f l proj) l proj
      = removeFollower (followers_of r l proj) f :=
  followers_of_setEdge_self r (l, proj) _

/-- C8: a second `unfollow` with the same arguments changes nothing (and an
`unfollow` of an absent edge is a complete no-op, not an error), and a
`LeaderUpdate` whose sequence number is not strictly greater than the last
applied sequence for that leader leaves the pane unchanged. -/
theorem C8_idempotence (r : Registry) (f l : PeerId) (proj : ProjectId)
    (canMat : ItemRef → Bool) (p : Pane) (leader : PeerId) (snap : ViewSnapshot)
    (seq : Nat) (hseq : seq ≤ lastSeqOf p leader) :
    unfollow (unfollow r f l proj) f l proj = unfollow r f l proj
    ∧ (lookupEdge r.edges (l, proj) = none → unfollow r f l proj = r)
    ∧ on_leader_update canMat p leader snap seq = p := by
  refine ⟨?_, ?_, ?_⟩
  · calc unfollow (unfollow r f l proj) f l proj
        = setEdge (unfollow r f l proj) (l, proj)
            (removeFollower (followers_of (unfollow r f l proj) l proj) f) := rfl
      _ = setEdge (setEdge r (l, proj) (removeFollower (followers_of r l proj) f)) (l, proj)
            (removeFollower (followers_of r l proj) f) := by
          rw [followers_of_unfollow, removeFollower_idem]; rfl
      _ = setEdge r (l, proj) (removeFollower (followers_of r l proj) f) :=
          setEdge_setEdge r (l, proj) _ _
      _ = unfollow r f l proj := rfl
  · intro hnone
    have hfs : followers_of r l proj = [] := by simp [followers_of, hnone]
    show setEdge r (l, proj) (removeFollower (followers_of r l proj) f) = r
    rw [hfs]
    simp [removeFollower, setEdge, eraseKey_of_lookup_none r.edges (l, proj) hnone]
  · have hlt : ¬ lastSeqOf p leader < seq := Nat.not_lt.mpr hseq
    cases hf : p.followState with
    | Unfollowed => simp [on_leader_update, hf]
    | Following l2 => simp [on_leader_update, hf, hlt]

theorem C8_idempotence_witness :
    unfollow (unfollow sampleReg 2 1 0) 2 1 0 = unfollow sampleReg 2 1 0
    ∧ unfollow sampleReg 2 5 0 = sampleReg
    ∧ on_leader_update allItems samplePane 1 ⟨2⟩ 0 = samplePane :=
  ⟨(C8_idempotence sampleReg 2 1 0 allItems samplePane 1 ⟨2⟩ 0 (by decide)).1,
   (C8_idempotence sampleReg 2 5 0 allItems samplePane 1 ⟨2⟩ 0 (by decide)).2.1 (by decide),
   (C8_idempotence sampleReg 2 1 0 allItems samplePane 1 ⟨2⟩ 0 (by decide)).2.2⟩

end Following

namespace Following

theorem mem_addFollower (fs : List PeerId) (f x : PeerId) :
    x ∈ addFollower fs f ↔ x ∈ fs ∨ x = f := by
  by_cases hm : f ∈ fs
  · simp only [addFollower, if_pos hm]
    constructor
    · exact Or.inl
    · rintro (h | h)
      · exact h
      · exact h ▸ hm
  · simp [addFollower, hm]

/-- C7: `follow(P, P, project)` always fails with `SelfFollow` (an error
response carries no registry, so no follower edge is created), and every
successful `follow` preserves the invariant that no peer appears in its own
follower set. -/
theorem C7_no_self_follow (present : PeerId → ProjectId → Bool) (r : Registry)
    (p : PeerId) (proj : ProjectId) (hns : NoSelfEdges r)
    (f l : PeerId) (r' : Registry) (hok : follow present r f l proj = .ok r') :
    follow present r p p proj = .error .SelfFollow ∧ NoSelfEdges r' := by
  constructor
  · simp [follow]
  · unfold follow at hok
    split_ifs at hok with hfl hpres
    have hok2 := Except.ok.inj hok
    intro q pr hq
    rw [← hok2] at hq
    by_cases h1 : ((q, pr) : EdgeKey) = (l, proj)
    · injection h1 with hql hpr
      subst hql
      subst hpr
      rw [followers_of_setEdge_self] at hq
      rw [mem_addFollower] at hq
      rcases hq with hq | hq
      · exact hns q pr hq
      · exact hfl (hq ▸ rfl)
    · rw [followers_of_setEdge_ne r (l, proj) (q, pr) _ h1] at hq
      exact hns q pr hq

theorem C7_no_self_follow_witness :
    follow (fun _ _ => true) (Registry.mk []) 7 7 0 = .error .SelfFollow
    ∧ NoSelfEdges ⟨[((1, 0), [4])]⟩ :=
  C7_no_self_follow (fun _ _ => true) ⟨[]⟩ 7 0
    (fun q pr hq => by simp [followers_of, lookupEdge] at hq)
    4 1 ⟨[((1, 0), [4])]⟩ rfl

end Following

namespace Following

theorem lookupEdge_none_of_all (es : List (EdgeKey × List PeerId)) (key : EdgeKey)
    (h : ∀ e ∈ es, e.fst ≠ key) : lookupEdge es key = none := by
  induction es with
  | nil => rfl
  | cons e rest ih =>
    obtain ⟨k, fs⟩ := e
    have hk : k ≠ key := h (k, fs) (List.mem_cons_self _ _)
    simp only [lookupEdge, if_neg hk]
    exact ih (fun e he => h e (List.mem_cons_of_mem _ he))

theorem remove_peer_keys (r : Registry) (peer : PeerId) :
    ∀ e ∈ (remove_peer r peer).edges, e.fst.fst ≠ peer := by
  intro e he
  unfold remove_peer at he
  rw [List.mem_filterMap] at he
  obtain ⟨a, _, ha⟩ := he
  split_ifs at ha with h1
  simp only [] at ha
  split_ifs at ha with h2
  have := Option.some.inj ha
  rw [← this]
  exact h1

theorem followers_of_remove_peer (r : Registry) (peer : PeerId) (proj : ProjectId) :
    followers_of (remove_peer r peer) peer proj = [] := by
  unfold followers_of
  rw [lookupEdge_none_of_all _ (peer, proj)
    (fun e he hk => remove_peer_keys r peer e he (congrArg Prod.fst hk))]

/-- C5: when leader `L` disconnects and the reconnect window elapses,
`remove_peer` empties `followers_of(L, P)` for every project and every pane
that was in `Following L` transitions to `Unfollowed` (no follower issues an
explicit unfollow: only `on_leader_disconnected` runs on panes). -/
theorem C5_disconnect_cleanup (s : SysState) (L : PeerId) (P : ProjectId) (i : Nat)
    (p : Pane) (hi : s.panes[i]? = some p) (hp : p.followState = .Following L) :
    followers_of (handle_remove_peer s L).registry L P = []
    ∧ ((handle_remove_peer s L).panes[i]?).map Pane.followState
        = some .Unfollowed := by
  constructor
  · exact followers_of_remove_peer s.registry L P
  · show ((s.panes.map (fun q => on_leader_disconnected q L))[i]?).map Pane.followState
        = some .Unfollowed
    rw [List.getElem?_map, hi]
    simp [on_leader_disconnected, hp]

theorem C5_disconnect_cleanup_witness :
    followers_of (handle_remove_peer ⟨sampleReg, [samplePane]⟩ 1).registry 1 0 = []
    ∧ (((handle_remove_peer ⟨sampleReg, [samplePane]⟩ 1).panes[0]?).map Pane.followState
        = some .Unfollowed) :=
  C5_disconnect_cleanup ⟨sampleReg, [samplePane]⟩ 1 0 0 samplePane rfl rfl

end Following

namespace Following

theorem lookupEdge_append (xs ys : List (EdgeKey × List PeerId)) (key : EdgeKey) :
    lookupEdge (xs ++ ys) key
      = match lookupEdge xs key with
        | some fs => some fs
        | none => lookupEdge ys key := by
  induction xs with
  | nil => simp [lookupEdge]
  | cons e rest ih =>
    obtain ⟨k, fs⟩ := e
    by_cases hk : k = key <;> simp [lookupEdge, hk, ih]

theorem lookupEdge_dropProject_self (es : List (EdgeKey × List PeerId)) (P : ProjectId)
    (L : PeerId) : lookupEdge (dropProject P es) (L, P) = none := by
  induction es with
  | nil => rfl
  | cons e rest ih =>
    obtain ⟨⟨l, pr⟩, fs⟩ := e
    by_cases hpr : pr = P
    · simp [dropProject, hpr, ih]
    · simp [dropProject, hpr, lookupEdge, Prod.mk.injEq, ih]

theorem lookupEdge_dropProject_ne (es : List (EdgeKey × List PeerId)) (P : ProjectId)
    (key : EdgeKey) (h : key.snd ≠ P) :
    lookupEdge (dropProject P es) key = lookupEdge es key := by
  induction es with
  | nil => rfl
  | cons e rest ih =>
    obtain ⟨⟨l, pr⟩, fs⟩ := e
    by_cases hpr : pr = P
    · subst hpr
      have hkey : ((l, pr) : EdgeKey) ≠ key := by
        intro hk
        exact h (by rw [← hk])
      simp [dropProject, lookupEdge, hkey, ih]
    · by_cases hk : ((l, pr) : EdgeKey) = key
      · simp [dropProject, hpr, lookupEdge, hk]
      · simp [dropProject, hpr, lookupEdge, hk, ih]

theorem lookupEdge_tagProject (es : FCEdges) (P : ProjectId) (L : PeerId) :
    (match lookupEdge (tagProject P es) (L, P) with
     | some fs => fs
     | none => []) = lookupFC es L := by
  induction es with
  | nil => rfl
  | cons e rest ih =>
    obtain ⟨l, fs⟩ := e
    by_cases hl : l = L
    · simp [tagProject, lookupEdge, lookupFC, hl]
    · simp [tagProject, lookupEdge, lookupFC, hl, Prod.mk.injEq, ih]

theorem lookupEdge_tagProject_ne (es : FCEdges) (P : ProjectId) (key : EdgeKey)
    (h : key.snd ≠ P) : lookupEdge (tagProject P es) key = none := by
  induction es with
  | nil => rfl
  | cons e rest ih =>
    obtain ⟨l, fs⟩ := e
    have hkey : ((l, P) : EdgeKey) ≠ key := by
      intro hk
      exact h (by rw [← hk])
    simp [tagProject, lookupEdge, hkey, ih]

theorem followers_of_applyFC_self (r : Registry) (P : ProjectId) (es : FCEdges) (L : PeerId) :
    followers_of (apply_followers_changed r P es) L P = lookupFC es L := by
  unfold followers_of apply_followers_changed
  rw [lookupEdge_append, lookupEdge_dropProject_self]
  exact lookupEdge_tagProject es P L

theorem followers_of_applyFC_ne (r : Registry) (P : ProjectId) (es : FCEdges)
    (L : PeerId) (P' : ProjectId) (h : P' ≠ P) :
    followers_of (apply_followers_changed r P es) L P' = followers_of r L P' := by
  unfold followers_of apply_followers_changed
  rw [lookupEdge_append, lookupEdge_dropProject_ne r.edges P (L, P') h,
    lookupEdge_tagProject_ne es P (L, P') h]
  cases lookupEdge r.edges (L, P') <;> rfl

theorem deliver_all_char (msgs : List (ProjectId × FCEdges)) (r : Registry) (L : PeerId)
    (P : ProjectId) :
    followers_of (deliver_all r msgs) L P
      = match lastFC msgs P with
        | some es => lookupFC es L
        | none => followers_of r L P := by
  induction msgs generalizing r with
  | nil => simp [deliver_all, lastFC]
  | cons m rest ih =>
    obtain ⟨proj, es⟩ := m
    simp only [deliver_all, lastFC]
    rw [ih]
    cases hrest : lastFC rest P with
    | some es2 => simp
    | none =>
      by_cases hproj : proj = P
      · subst hproj
        simp [followers_of_applyFC_self]
      · simp [hproj, followers_of_applyFC_ne r proj es L P (fun hp => hproj hp.symm)]

/-- C4: registry convergence — whatever their initial registry copies and
whatever order and duplication the `FollowersChanged` broadcasts arrive in,
two participants whose final delivered broadcast for project `P` is the same
message observe the identical `followers_of(L, P)` for every leader `L`. -/
theorem C4_registry_convergence (msgs1 msgs2 : List (ProjectId × FCEdges))
    (r1 r2 : Registry) (L : PeerId) (P : ProjectId) (es : FCEdges)
    (h1 : lastFC msgs1 P = some es) (h2 : lastFC msgs2 P = some es) :
    followers_of (deliver_all r1 msgs1) L P = followers_of (deliver_all r2 msgs2) L P := by
  rw [deliver_all_char, deliver_all_char, h1, h2]

theorem C4_registry_convergence_witness :
    followers_of (deliver_all (Registry.mk []) [(0, [(1, [2])])]) 1 0
      = followers_of (deliver_all sampleReg [(0, [(9, [4])]), (0, [(1, [2])])]) 1 0 :=
  C4_registry_convergence [(0, [(1, [2])])] [(0, [(9, [4])]), (0, [(1, [2])])]
    ⟨[]⟩ sampleReg 1 0 [(1, [2])] rfl rfl

end Following

namespace Following

theorem follow_ok (present : PeerId → ProjectId → Bool) (r : Registry) (f l : PeerId)
    (proj : ProjectId) (h1 : f ≠ l) (h2 : present l proj = true) :
    follow present r f l proj
      = .ok (setEdge r (l, proj) (addFollower (followers_of r l proj) f)) := by
  simp [follow, h1, h2]

theorem start_following_state (present : PeerId → ProjectId → Bool) (s : ClientState)
    (me l : PeerId) (proj : ProjectId) :
    (start_following present s me l proj).pane.followState
      = if me ≠ l ∧ present l proj then .Following l else s.pane.followState := by
  by_cases h1 : me = l
  · simp [start_following, follow, h1]
  · by_cases h2 : present l proj
    · simp [start_following, follow, h1, h2]
    · simp [start_following, follow, h1, h2]

theorem run_follows_state (present : PeerId → ProjectId → Bool) (me : PeerId)
    (calls : List (PeerId × ProjectId)) (s : ClientState) :
    (run_follows present s me calls).pane.followState
      = match last_success present me calls with
        | some l => .Following l
        | none => s.pane.followState := by
  induction calls generalizing s with
  | nil => simp [run_follows, last_success]
  | cons c rest ih =>
    obtain ⟨l, proj⟩ := c
    simp only [run_follows, last_success]
    rw [ih]
    cases hrest : last_success present me rest with
    | some x => simp
    | none =>
      simp only []
      rw [start_following_state]
      by_cases hcond : me ≠ l ∧ present l proj <;> simp [hcond]

theorem not_mem_followers_unfollow (r : Registry) (f l : PeerId) (proj : ProjectId) :
    f ∉ followers_of (unfollow r f l proj) l proj := by
  rw [followers_of_unfollow]
  simp [removeFollower]

theorem start_following_removes_prev (present : PeerId → ProjectId → Bool) (s : ClientState)
    (me l1 l2 : PeerId) (proj : ProjectId) (hstate : s.pane.followState = .Following l1)
    (h1 : me ≠ l2) (h2 : present l2 proj = true) (hne : l1 ≠ l2) :
    me ∉ followers_of (start_following present s me l2 proj).registry l1 proj := by
  simp only [start_following, hstate,
    follow_ok present (unfollow s.registry me l1 proj) me l2 proj h1 h2]
  rw [followers_of_setEdge_ne (unfollow s.registry me l1 proj) (l2, proj) (l1, proj) _
    (by simp [hne])]
  exact not_mem_followers_unfollow s.registry me l1 proj

theorem ws_follow_other_pane (present : PeerId → ProjectId → Bool) (w : WSClient)
    (i j : Nat) (me l : PeerId) (proj : ProjectId) (hij : i ≠ j) :
    (ws_follow present w i me l proj).panes[j]? = w.panes[j]? := by
  unfold ws_follow
  cases hp : w.panes[i]? with
  | none => rfl
  | some p => simp [List.getElem?_set_ne hij]

/-- C3: after any sequence of follow calls on the same pane the pane's
leader is exactly the most recent successful call's leader (an empty run of
successes leaves the original state); a successful switch to a new leader
removes the pane's owner from the previous leader's follower edge; and a
follow on one pane never touches another pane of the same workspace. -/
theorem C3_at_most_one_leader (present : PeerId → ProjectId → Bool) (me : PeerId)
    (calls : List (PeerId × ProjectId)) (s : ClientState) (l1 l2 : PeerId)
    (proj : ProjectId) (hstate : s.pane.followState = .Following l1)
    (h1 : me ≠ l2) (h2 : present l2 proj = true) (hne : l1 ≠ l2)
    (w : WSClient) (i j : Nat) (hij : i ≠ j) :
    ((run_follows present s me calls).pane.followState
      = match last_success present me calls with
        | some l => .Following l
        | none => s.pane.followState)
    ∧ (start_following present s me l2 proj).pane.followState = .Following l2
    ∧ me ∉ followers_of (start_following present s me l2 proj).registry l1 proj
    ∧ (ws_follow present w i me l2 proj).panes[j]? = w.panes[j]? := by
  refine ⟨run_follows_state present me calls s, ?_,
    start_following_removes_prev present s me l1 l2 proj hstate h1 h2 hne,
    ws_follow_other_pane present w i j me l2 proj hij⟩
  rw [start_following_state]
  simp [h1, h2]

theorem C3_at_most_one_leader_witness :
    ((run_follows (fun _ _ => true) ⟨sampleReg, samplePane⟩ 2 [(5, 0), (6, 0)]).pane.followState
      = match last_success (fun _ _ => true) 2 [(5, 0), (6, 0)] with
        | some l => .Following l
        | none => (ClientState.mk sampleReg samplePane).pane.followState)
    ∧ (start_following (fun _ _ => true) ⟨sampleReg, samplePane⟩ 2 6 0).pane.followState
        = .Following 6
    ∧ 2 ∉ followers_of
        (start_following (fun _ _ => true) ⟨sampleReg, samplePane⟩ 2 6 0).registry 1 0
    ∧ (ws_follow (fun _ _ => true) ⟨sampleReg, [samplePane]⟩ 0 2 6 0).panes[1]?
        = (WSClient.mk sampleReg [samplePane]).panes[1]? :=
  C3_at_most_one_leader (fun _ _ => true) 2 [(5, 0), (6, 0)] ⟨sampleReg, samplePane⟩ 1 6 0
    rfl (by decide) rfl (by decide) ⟨sampleReg, [samplePane]⟩ 0 1 (by decide)

end Following

namespace Following

theorem start_following_registry (present : PeerId → ProjectId → Bool) (s : ClientState)
    (me l : PeerId) (proj : ProjectId) (h1 : me ≠ l) (h2 : present l proj = true) :
    (start_following present s me l proj).registry
      = setEdge (match s.pane.followState with
          | .Following old => unfollow s.registry me old proj
          | .Unfollowed => s.registry) (l, proj)
          (addFollower (followers_of (match s.pane.followState with
            | .Following old => unfollow s.registry me old proj
            | .Unfollowed => s.registry) l proj) me) := by
  cases hs : s.pane.followState with
  | Unfollowed => simp [start_following, hs, follow, h1, h2]
  | Following old => simp [start_following, hs, follow, h1, h2]

theorem mem_addFollower_self (fs : List PeerId) (f : PeerId) : f ∈ addFollower fs f := by
  by_cases h : f ∈ fs <;> simp [addFollower, h]

theorem mem_followers_unfollow (r : Registry) (x f l l2 : PeerId) (proj proj2 : ProjectId)
    (hxf : x ≠ f) (hx : x ∈ followers_of r l proj) :
    x ∈ followers_of (unfollow r f l2 proj2) l proj := by
  by_cases hk : ((l, proj) : EdgeKey) = (l2, proj2)
  · injection hk with hk1 hk2
    subst hk1
    subst hk2
    rw [followers_of_unfollow]
    simp [removeFollower, hx, hxf]
  · unfold unfollow
    rw [followers_of_setEdge_ne r (l2, proj2) (l, proj) _ hk]
    exact hx

/-- C9: when two distinct peers follow each other (the registry serializes
the two requests), both requests succeed: afterwards A's pane is
`Following B`, B's pane is `Following A`, and the converged registry holds
both edges — neither request is rejected or broken by the other. -/
theorem C9_mutual_following (present : PeerId → ProjectId → Bool) (r : Registry)
    (pA pB : Pane) (A B : PeerId) (proj : ProjectId) (hAB : A ≠ B)
    (hpA : present A proj = true) (hpB : present B proj = true) :
    (mutual_follow present r pA pB A B proj).1.pane.followState = .Following B
    ∧ (mutual_follow present r pA pB A B proj).2.pane.followState = .Following A
    ∧ B ∈ followers_of (mutual_follow present r pA pB A B proj).2.registry A proj
    ∧ A ∈ followers_of (mutual_follow present r pA pB A B proj).2.registry B proj := by
  have hBA : B ≠ A := Ne.symm hAB
  have hA : A ∈ followers_of (start_following present ⟨r, pA⟩ A B proj).registry B proj := by
    rw [start_following_registry present ⟨r, pA⟩ A B proj hAB hpB]
    rw [followers_of_setEdge_self]
    exact mem_addFollower_self _ A
  refine ⟨?_, ?_, ?_, ?_⟩
  · show (start_following present ⟨r, pA⟩ A B proj).pane.followState = _
    rw [start_following_state]
    simp [hAB, hpB]
  · show (start_following present
        ⟨(start_following present ⟨r, pA⟩ A B proj).registry, pB⟩ B A proj).pane.followState = _
    rw [start_following_state]
    simp [hBA, hpA]
  · show B ∈ followers_of (start_following present
        ⟨(start_following present ⟨r, pA⟩ A B proj).registry, pB⟩ B A proj).registry A proj
    rw [start_following_registry present _ B A proj hBA hpA]
    rw [followers_of_setEdge_self]
    exact mem_addFollower_self _ B
  · show A ∈ followers_of (start_following present
        ⟨(start_following present ⟨r, pA⟩ A B proj).registry, pB⟩ B A proj).registry B proj
    rw [start_following_registry present _ B A proj hBA hpA]
    rw [followers_of_setEdge_ne _ (A, proj) (B, proj) _ (by simp [hBA])]
    cases hpb : pB.followState with
    | Unfollowed => simpa [hpb] using hA
    | Following old =>
      simp only [hpb]
      exact mem_followers_unfollow _ A B B old proj proj hAB hA

theorem C9_mutual_following_witness :
    (mutual_follow (fun _ _ => true) ⟨[]⟩ samplePane samplePane 2 3 0).1.pane.followState
        = .Following 3
    ∧ (mutual_follow (fun _ _ => true) ⟨[]⟩ samplePane samplePane 2 3 0).2.pane.followState
        = .Following 2
    ∧ 3 ∈ followers_of
        (mutual_follow (fun _ _ => true) ⟨[]⟩ samplePane samplePane 2 3 0).2.registry 2 0
    ∧ 2 ∈ followers_of
        (mutual_follow (fun _ _ => true) ⟨[]⟩ samplePane samplePane 2 3 0).2.registry 3 0 :=
  C9_mutual_following (fun _ _ => true) ⟨[]⟩ samplePane samplePane 2 3 0 (by decide) rfl rfl

end Following

namespace Zed

theorem lookupItem_insertItem_self (its : List (EntryKey × OpenedItem)) (key : EntryKey)
    (it : OpenedItem) : lookupItem (insertItem its key it) key = some it := by
  induction its with
  | nil => simp [insertItem, lookupItem]
  | cons e rest ih =>
    obtain ⟨k, old⟩ := e
    by_cases hk : k = key <;> simp [insertItem, lookupItem, hk, ih]

theorem readChan_writeChan_self (cs : List (Nat × Option OpenResult)) (ch : Nat)
    (r : OpenResult) : readChan (writeChan cs ch r) ch = some r := by
  induction cs with
  | nil => simp [writeChan, readChan]
  | cons e rest ih =>
    obtain ⟨c, v⟩ := e
    by_cases hc : c = ch <;> simp [writeChan, readChan, hc, ih]

/-- C10: `open_entry` deduplicates opens per `(worktree id, file id)` key.
When the entry is already in `items` the call returns a future derived from
the existing entry and changes nothing (no second load starts).  When the
entry is new, the first call starts a single load with a fresh channel; a
second call issued while the load is pending returns the very same channel
future without touching the state; once the load finishes with handle `h`,
both pending futures and any later call resolve to the same `h`. -/
theorem C10_open_entry_dedup (w w0 : WorkspaceSt) (entry : EntryKey) (h : HandleId)
    (it : OpenedItem) (hnone : lookupItem w.items entry = none)
    (hwt : entry.fst ∈ w.worktrees) (hit : lookupItem w0.items entry = some it) :
    open_entry w0 entry = .ok ((match it with
      | OpenedItem.Loaded h0 => OpenFuture.ready (.ok h0)
      | OpenedItem.Loading ch => OpenFuture.fromChannel ch), w0)
    ∧ open_entry w entry = .ok (.fromChannel w.nextChan, startSt w entry)
    ∧ open_entry (startSt w entry) entry = .ok (.fromChannel w.nextChan, startSt w entry)
    ∧ resolve (finish_load (startSt w entry) entry w.nextChan (.ok h))
        (.fromChannel w.nextChan) = some (.ok h)
    ∧ open_entry (finish_load (startSt w entry) entry w.nextChan (.ok h)) entry
        = .ok (.ready (.ok h), finish_load (startSt w entry) entry w.nextChan (.ok h))
    ∧ resolve (finish_load (startSt w entry) entry w.nextChan (.ok h)) (.ready (.ok h))
        = some (.ok h) := by
  refine ⟨?_, ?_, ?_, ?_, ?_, ?_⟩
  · cases it with
    | Loaded h0 => simp [open_entry, hit]
    | Loading ch => simp [open_entry, hit]
  · simp [open_entry, hnone, hwt, startSt]
  · simp [open_entry, startSt, lookupItem_insertItem_self]
  · simp [resolve, finish_load, startSt, readChan_writeChan_self]
  · simp [open_entry, finish_load, startSt, lookupItem_insertItem_self]
  · simp [resolve]

theorem C10_open_entry_dedup_witness :
    open_entry ⟨[1], [((1, 7), OpenedItem.Loaded 42)], [], 0⟩ (1, 7)
        = .ok (.ready (.ok 42), ⟨[1], [((1, 7), OpenedItem.Loaded 42)], [], 0⟩)
    ∧ open_entry ⟨[1], [], [], 0⟩ (1, 7)
        = .ok (.fromChannel 0, startSt ⟨[1], [], [], 0⟩ (1, 7))
    ∧ open_entry (startSt ⟨[1], [], [], 0⟩ (1, 7)) (1, 7)
        = .ok (.fromChannel 0, startSt ⟨[1], [], [], 0⟩ (1, 7))
    ∧ resolve (finish_load (startSt ⟨[1], [], [], 0⟩ (1, 7)) (1, 7) 0 (.ok 42))
        (.fromChannel 0) = some (.ok 42)
    ∧ open_entry (finish_load (startSt ⟨[1], [], [], 0⟩ (1, 7)) (1, 7) 0 (.ok 42)) (1, 7)
        = .ok (.ready (.ok 42), finish_load (startSt ⟨[1], [], [], 0⟩ (1, 7)) (1, 7) 0 (.ok 42))
    ∧ resolve (finish_load (startSt ⟨[1], [], [], 0⟩ (1, 7)) (1, 7) 0 (.ok 42))
        (.ready (.ok 42)) = some (.ok 42) :=
  C10_open_entry_dedup ⟨[1], [], [], 0⟩ ⟨[1], [((1, 7), OpenedItem.Loaded 42)], [], 0⟩
    (1, 7) 42 (OpenedItem.Loaded 42) rfl (by decide) rfl

end Zed
